import Mathlib

/-
  Shallow embedding of the fescii/chat-server message pipeline, validator,
  conversation service, socket worker and upgrade handlers, together with
  theorems settling the specification claims.

  Modelling conventions, used throughout and noted again at each definition:
  * JavaScript objects reaching the validator are modelled by `JsVal`
    (undefined / null / string / boolean / array / object).
  * MongoDB queries are modelled by raw document matching: a value matches a
    path only when the stored value at that path is equal to it; values of
    different BSON types (for example an embedded participant document and a
    plain string) are never equal; a missing path yields no value.
  * `new Model(lit)` followed by `save()` is modelled by a cast function that
    reads exactly the paths declared in the mongoose schema from the literal,
    applies the declared defaults, fails (None) when a required path is
    missing or malformed, and discards keys that are not schema paths
    (mongoose strict mode, the default).
  * Machine integers do not occur; all counts are Nat.
-/

/- ───────────────────────── JavaScript values ───────────────────────── -/

/-- A JavaScript value as seen by the validator and the mongoose casts. -/
inductive JsVal where
  | undef : JsVal
  | null  : JsVal
  | str   : String → JsVal
  | boolv : Bool → JsVal
  | arr   : List JsVal → JsVal
  | obj   : List (String × JsVal) → JsVal

/-- A JS object as a field list (property order preserved). -/
abbrev FieldMap := List (String × JsVal)

/-- Property read `values[key]`: a missing property is `undefined`. -/
def lookupField (vs : FieldMap) (k : String) : JsVal :=
  match vs.find? (fun kv => kv.1 == k) with
  | some kv => kv.2
  | none => JsVal.undef

/-- Property write `values[key] = v`: overwrite in place, else append. -/
def setField (vs : FieldMap) (k : String) (v : JsVal) : FieldMap :=
  if vs.any (fun kv => kv.1 == k) then
    vs.map (fun kv => if kv.1 == k then (k, v) else kv)
  else
    vs ++ [(k, v)]

/- ───────────────────────── sanitize (src/utils, `sanitize`) ───────────────────────── -/

/-- One character of the HTML escape of `sanitize`:
`& < > " '` become their entities, all else is kept. -/
def escChar (c : Char) : String :=
  if c = '&' then "&amp;"
  else if c = '<' then "&lt;"
  else if c = '>' then "&gt;"
  else if c = Char.ofNat 34 then "&quot;"
  else if c = Char.ofNat 39 then "&#39;"
  else String.singleton c

/-- JS whitespace for `trim` (space, tab, LF, VT, FF, CR). -/
def isJsSpace (c : Char) : Bool :=
  c = ' ' || c = Char.ofNat 9 || c = Char.ofNat 10 || c = Char.ofNat 11 ||
  c = Char.ofNat 12 || c = Char.ofNat 13

/-- `value.trim()`, spelled over the character list so that it reduces. -/
def jsTrim (s : String) : String :=
  String.mk (((s.toList.dropWhile isJsSpace).reverse.dropWhile isJsSpace).reverse)

/-- `sanitize(value)`: trim, then HTML-escape the special characters. -/
def sanitize (s : String) : String :=
  ((jsTrim s).toList.map escChar).foldl (fun a b => a ++ b) ""

/- ───────────────────────── validator (src/utils, `validate`) ───────────────────────── -/

/-- The `type` entry of a validation rule. The source also stores the rule
properties `encrypted: 'string'` and `nonce: 'string'` on content rules, but
`validate` never reads them; they are not modelled. -/
inductive RuleType where
  | stringT : RuleType
  | booleanT : RuleType
  | enumT : List String → RuleType
  | arrayT : RuleType
  | contentT : RuleType

/-- One schema rule. `minValue`/`maxValue` and the `email`/`dob`/`phone`
special cases of the source are omitted: no message-schema key carries them
or is named so, hence those branches are unreachable for the schemas
embedded here. -/
structure Rule where
  rtype : RuleType
  required : Bool
  maxLength : Option Nat
  minLength : Option Nat

/-- The required-check predicate of `validate`:
`values[key] === undefined || values[key] === null || values[key] === ''`. -/
def isMissing : JsVal → Bool
  | JsVal.undef => true
  | JsVal.null => true
  | JsVal.str s => s == ""
  | _ => false

/-- Whether a value is a JS boolean (`typeof values[key] === 'boolean'`). -/
def isBoolVal : JsVal → Bool
  | JsVal.boolv _ => true
  | _ => false

/-- Whether the rule type is `boolean`. -/
def isBooleanT : RuleType → Bool
  | RuleType.booleanT => true
  | _ => false

/-- Evaluation of `values[key].length`: strings and arrays have a length,
booleans and objects yield `undefined` (none), and reading `length` of
`undefined`/`null` throws a TypeError (error). -/
def lengthOf : JsVal → Except String (Option Nat)
  | JsVal.undef => Except.error "Cannot read properties of undefined reading length"
  | JsVal.null => Except.error "Cannot read properties of null reading length"
  | JsVal.str s => Except.ok (some s.length)
  | JsVal.arr xs => Except.ok (some xs.length)
  | _ => Except.ok none

/-- The string branch of `validate`: for a `string` rule a non-string value
throws, a string value is sanitised (the result replaces `values[key]`);
all other rule types leave the value untouched.  Note the source has no
branch at all for the `array` and `content` rule types. -/
def strSan : RuleType → JsVal → Except String (Option String)
  | RuleType.stringT, JsVal.str s => Except.ok (some (sanitize s))
  | RuleType.stringT, _ => Except.error " should be a string"
  | _, _ => Except.ok none

/-- The `maxLength`/`minLength` checks of `validate`, reading the possibly
re-assigned `values[key]`.  A `none` length (JS `undefined`) compares false
with both bounds, exactly as `undefined > n` and `undefined < n` do. -/
def lenCheck (k : String) (r : Rule) (v : JsVal) : Option String :=
  match r.maxLength with
  | some m =>
    match lengthOf v with
    | Except.error e => some e
    | Except.ok (some l) =>
      if m < l then
        some (k ++ " should not be more than " ++ toString m ++ " characters")
      else
        lenMinCheck k r v
    | Except.ok none => lenMinCheck k r v
  | none => lenMinCheck k r v
where
  lenMinCheck (k : String) (r : Rule) (v : JsVal) : Option String :=
    match r.minLength with
    | some m =>
      match lengthOf v with
      | Except.error e => some e
      | Except.ok (some l) =>
        if l < m then
          some (k ++ " should not be less than " ++ toString m ++ " characters")
        else
          none
      | Except.ok none => none
    | none => none

/-- The enum check of `validate`: when the rule carries an enum list, the
value must be (string-)equal to a member; `includes` uses strict equality,
so a non-string value is never a member. -/
def enumCheck (k : String) (rt : RuleType) (v : JsVal) : Option String :=
  match rt with
  | RuleType.enumT es =>
    let hit := match v with
      | JsVal.str s => es.contains s
      | _ => false
    if hit then none
    else some (k ++ " should be one of " ++ String.intercalate ", " es)
  | _ => none

/-- The tail of one validation step, after the possible in-place
sanitisation: the length checks and the enum check, both reading the
(possibly re-assigned) `values[key]`. -/
def checkFieldTail (k : String) (r : Rule) (vs1 : FieldMap) : Except String FieldMap :=
  match lenCheck k r (lookupField vs1 k) with
  | some e => Except.error e
  | none =>
    match enumCheck k r.rtype (lookupField vs1 k) with
    | some e => Except.error e
    | none => Except.ok vs1

/-- One iteration of the `for (const key in schema)` loop of `validate`,
in source order: required, boolean, string (+ sanitise in place),
maxLength, minLength, enum.  There is no branch for the `content` rule
type: beyond the presence check a content value of any shape passes. -/
def checkField (k : String) (r : Rule) (vs : FieldMap) : Except String FieldMap :=
  if r.required && isMissing (lookupField vs k) then
    Except.error (k ++ " is required")
  else if isBooleanT r.rtype && !(isBoolVal (lookupField vs k)) then
    Except.error (k ++ " should be a boolean")
  else
    match strSan r.rtype (lookupField vs k) with
    | Except.error e => Except.error (k ++ e)
    | Except.ok none => checkFieldTail k r vs
    | Except.ok (some s) => checkFieldTail k r (setField vs k (JsVal.str s))

/-- `validate(values, schema)`: fold the per-field check over the schema in
declaration order; the first violation aborts with its message, otherwise
the (sanitised) values are returned. -/
def validate (schema : List (String × Rule)) (vs : FieldMap) : Except String FieldMap :=
  match schema with
  | [] => Except.ok vs
  | (k, r) :: rest =>
    match checkField k r vs with
    | Except.error e => Except.error e
    | Except.ok vs1 => validate rest vs1

/- ───────────────────────── message schemas (src/validators/message.js) ───────────────────────── -/

/-- Rule constructor shorthand. -/
def mkRule (rt : RuleType) (req : Bool) (maxL : Option Nat) : Rule :=
  { rtype := rt, required := req, maxLength := maxL, minLength := none }

/-- The `new` message schema of `validateMessage`, in source order. -/
def newMessageSchema : List (String × Rule) :=
  [ ("conversation", mkRule RuleType.stringT true (some 32)),
    ("kind", mkRule (RuleType.enumT ["message", "reply", "forward"]) true none),
    ("type", mkRule (RuleType.enumT ["all", "audio"]) true none),
    ("user", mkRule RuleType.stringT true (some 32)),
    ("recipientContent", mkRule RuleType.contentT true none),
    ("senderContent", mkRule RuleType.contentT true none),
    ("status", mkRule (RuleType.enumT ["sent", "delivered", "read"]) true none),
    ("attachments", mkRule RuleType.arrayT false (some 10)),
    ("images", mkRule RuleType.arrayT false (some 10)),
    ("videos", mkRule RuleType.arrayT false (some 10)),
    ("reactions", mkRule RuleType.arrayT false (some 2)),
    ("audio", mkRule RuleType.stringT false (some 500)) ]

/-- The `reply` schema of `validateReply`: the `new` schema plus a required
`parent`, in source order. -/
def replyMessageSchema : List (String × Rule) :=
  [ ("conversation", mkRule RuleType.stringT true (some 32)),
    ("parent", mkRule RuleType.stringT true (some 32)),
    ("kind", mkRule (RuleType.enumT ["message", "reply", "forward"]) true none),
    ("type", mkRule (RuleType.enumT ["all", "audio"]) true none),
    ("user", mkRule RuleType.stringT true (some 32)),
    ("recipientContent", mkRule RuleType.contentT true none),
    ("senderContent", mkRule RuleType.contentT true none),
    ("status", mkRule (RuleType.enumT ["sent", "delivered", "read"]) true none),
    ("attachments", mkRule RuleType.arrayT false (some 10)),
    ("images", mkRule RuleType.arrayT false (some 10)),
    ("videos", mkRule RuleType.arrayT false (some 10)),
    ("reactions", mkRule RuleType.arrayT false (some 2)),
    ("audio", mkRule RuleType.stringT false (some 500)) ]

/-- `validateMessage(values, conversation)`: the frame value has its
`conversation` property overwritten with the hex the socket is bound to,
then the `new` schema is applied.  A non-object frame value silently loses
the property write, so every schema key reads back `undefined` and the
first required check fails. -/
def validateMessage (values : JsVal) (conversation : String) : Except String FieldMap :=
  match values with
  | JsVal.obj fs => validate newMessageSchema (setField fs "conversation" (JsVal.str conversation))
  | _ => validate newMessageSchema []

/-- `validateReply(values, conversation)`: same conversation overwrite,
`reply` schema. -/
def validateReply (values : JsVal) (conversation : String) : Except String FieldMap :=
  match values with
  | JsVal.obj fs => validate replyMessageSchema (setField fs "conversation" (JsVal.str conversation))
  | _ => validate replyMessageSchema []

/- ───────────────────────── message documents (part_006 messageSchema) ───────────────────────── -/

/-- An opaque content envelope `{encrypted, nonce}`. -/
structure Envelope where
  encrypted : String
  nonce : String
deriving DecidableEq

/-- The two-envelope projection the reply handler builds from the parent. -/
structure ReplyProj where
  recipientContent : Envelope
  senderContent : Envelope
deriving DecidableEq

/-- An attachment subdocument (all four fields required strings). -/
structure Attachment where
  name : String
  size : String
  kindOf : String  -- the schema field named `type`
  link : String
deriving DecidableEq

/-- A reactions subdocument `{from, to}` as declared by the schema. -/
structure ReactionPair where
  fromR : String  -- the schema field named `from`
  toR : String    -- the schema field named `to`
deriving DecidableEq

/-- Message status enum. -/
inductive MStatus where
  | sent : MStatus
  | delivered : MStatus
  | read : MStatus
deriving DecidableEq

/-- Parse a status string against the schema enum. -/
def MStatus.parse : String → Option MStatus
  | "sent" => some MStatus.sent
  | "delivered" => some MStatus.delivered
  | "read" => some MStatus.read
  | _ => none

/-- A persisted message document.  The fields are exactly the paths of
`messageSchema` (part_006 lines 49-74) plus `reply`, which is NOT a schema
path: documents produced by the cast below always carry `reply = none`,
modelling mongoose strict mode discarding undeclared keys.  The `updateAt`
timestamp of the schema is omitted (no claim mentions it). -/
structure MessageDoc where
  id : String  -- the `_id` ObjectId, modelled as its string form
  conversation : String
  kind : String
  typeOf : String  -- the schema field named `type`
  parent : Option String
  user : String
  recipientContent : Envelope
  senderContent : Envelope
  status : MStatus
  reply : Option ReplyProj
  attachments : List Attachment
  images : List String
  videos : List String
  reactions : List ReactionPair
  audio : Option String
  createdAt : Nat
deriving DecidableEq

/-- Mongoose cast of a nested content path: the value must be an object
whose `encrypted` and `nonce` are non-empty strings (both are `required`,
and mongoose treats a missing or empty string as failing `required`). -/
def castEnvelope : JsVal → Option Envelope
  | JsVal.obj fs =>
    match lookupField fs "encrypted", lookupField fs "nonce" with
    | JsVal.str e, JsVal.str n =>
      if e == "" || n == "" then none else some { encrypted := e, nonce := n }
    | _, _ => none
  | _ => none

/-- Cast of an enum string path with a default: `undefined` takes the
default, a string must be an enum member, anything else fails. -/
def castEnumDefault (es : List String) (dflt : String) : JsVal → Option String
  | JsVal.undef => some dflt
  | JsVal.str s => if es.contains s then some s else none
  | _ => none

/-- Cast of an optional string path defaulting to null. -/
def castOptStr : JsVal → Option (Option String)
  | JsVal.undef => some none
  | JsVal.null => some none
  | JsVal.str s => some (some s)
  | _ => none

/-- Cast of a `[String]` path (default `[]`). -/
def castStrList : JsVal → Option (List String)
  | JsVal.undef => some []
  | JsVal.arr xs =>
    xs.mapM (fun v => match v with | JsVal.str s => some s | _ => none)
  | _ => none

/-- Cast of one attachment subdocument. -/
def castAttachment : JsVal → Option Attachment
  | JsVal.obj fs =>
    match lookupField fs "name", lookupField fs "size",
          lookupField fs "type", lookupField fs "link" with
    | JsVal.str n, JsVal.str s, JsVal.str t, JsVal.str l =>
      if n == "" || s == "" || t == "" || l == "" then none
      else some { name := n, size := s, kindOf := t, link := l }
    | _, _, _, _ => none
  | _ => none

/-- Cast of one reactions subdocument (`from`/`to` required enum members). -/
def castReaction : JsVal → Option ReactionPair
  | JsVal.obj fs =>
    match lookupField fs "from", lookupField fs "to" with
    | JsVal.str f, JsVal.str t =>
      let es := ["like", "love", "laugh", "wow", "sad", "angry"]
      if es.contains f && es.contains t then some { fromR := f, toR := t } else none
    | _, _ => none
  | _ => none

/-- Cast of the `[attachment]` path (default `[]`). -/
def castAttachments : JsVal → Option (List Attachment)
  | JsVal.undef => some []
  | JsVal.arr xs => xs.mapM castAttachment
  | _ => none

/-- Cast of the `[reactions]` path (default `[]`). -/
def castReactions : JsVal → Option (List ReactionPair)
  | JsVal.undef => some []
  | JsVal.arr xs => xs.mapM castReaction
  | _ => none

/-- A required top-level string path (mongoose `required` fails on a
missing value and on the empty string). -/
def castReqStr : JsVal → Option String
  | JsVal.str s => if s == "" then none else some s
  | _ => none

/-- The object literal handed to `new Message(...)` by the dispatcher:
the validated frame fields spread first, then — for replies only — the
`reply` key, then `createdAt`. -/
structure MessageLiteral where
  fields : FieldMap
  reply : Option ReplyProj
  createdAt : Nat

/-- Models `new Message(lit)` followed by `save()`: mongoose reads exactly
the paths declared in `messageSchema` from the literal, applies defaults,
and fails when a required path is missing or malformed.  The literal's
`reply` key is NOT a declared path and is therefore discarded (strict
mode, the default): the resulting document always has `reply = none`. -/
def newMessageDoc (lit : MessageLiteral) (newId : String) : Option MessageDoc :=
  match castReqStr (lookupField lit.fields "conversation") with
  | none => none
  | some conversation =>
  match castEnumDefault ["message", "reply", "forward"] "message" (lookupField lit.fields "kind") with
  | none => none
  | some kind =>
  match castEnumDefault ["all", "audio"] "all" (lookupField lit.fields "type") with
  | none => none
  | some typeOf =>
  match castOptStr (lookupField lit.fields "parent") with
  | none => none
  | some parent =>
  match castReqStr (lookupField lit.fields "user") with
  | none => none
  | some user =>
  match castEnvelope (lookupField lit.fields "recipientContent") with
  | none => none
  | some recipientContent =>
  match castEnvelope (lookupField lit.fields "senderContent") with
  | none => none
  | some senderContent =>
  match (match lookupField lit.fields "status" with
         | JsVal.undef => some MStatus.sent
         | JsVal.str s => MStatus.parse s
         | _ => none) with
  | none => none
  | some status =>
  match castAttachments (lookupField lit.fields "attachments") with
  | none => none
  | some attachments =>
  match castStrList (lookupField lit.fields "images") with
  | none => none
  | some images =>
  match castStrList (lookupField lit.fields "videos") with
  | none => none
  | some videos =>
  match castReactions (lookupField lit.fields "reactions") with
  | none => none
  | some reactions =>
  match castOptStr (lookupField lit.fields "audio") with
  | none => none
  | some audio =>
    some { id := newId, conversation := conversation, kind := kind, typeOf := typeOf,
           parent := parent, user := user, recipientContent := recipientContent,
           senderContent := senderContent, status := status, reply := none,
           attachments := attachments, images := images, videos := videos,
           reactions := reactions, audio := audio, createdAt := lit.createdAt }

/- ───────────────────────── dispatcher (part_010 MessageController) ───────────────────────── -/

/-- An outbound frame `{kind, message}` as built by the dispatcher. -/
inductive OutFrame where
  | newMsg : MessageDoc → OutFrame
  | replyMsg : MessageDoc → OutFrame
  | statusMsg : String → String → MStatus → OutFrame  -- {_id, conversation, status}
  | removeMsg : String → String → OutFrame            -- {_id, conversation}
  | errorMsg : String → OutFrame                      -- {error}
deriving DecidableEq

/-- One observable effect of a handler: `ws.send` to the originating socket
only, `ws.publish` to a topic, or `socketQueue.add` of a delivery job
(`{to, kind: 'worker', conversation, data}`). -/
inductive Emission where
  | send : OutFrame → Emission
  | publish : String → OutFrame → Emission
  | enqueue : List String → String → OutFrame → Emission
deriving DecidableEq

/-- `Message.findOne({_id: v})` over the message store.  Raw document
matching: only the identifier string matches a stored `_id`; for any
non-string value (such as the whole `{id, user}` object the dispatcher
passes for remove frames) nothing matches.  (Mongoose would raise a cast
failure on such a value, landing in the same handler catch; under either
reading no document results.) -/
def findMessageV (st : List MessageDoc) : JsVal → Option MessageDoc
  | JsVal.str s => st.find? (fun d => d.id == s)
  | _ => none

/-- `MessageController.save` (part_010 lines 111-153).  The dead guard
`if (!this.validate(message))` at the top of the source is omitted:
`validate` always returns an object, which is truthy, so it never fires.
On validation failure an error frame goes to the origin; on cast/save
failure the catch sends `Error saving message`; on success the saved
document is published to the conversation topic and a delivery job is
enqueued to all participants. -/
def saveHandler (st : List MessageDoc) (convHex : String) (users : List String)
    (message : JsVal) (newId : String) (now : Nat) : List MessageDoc × List Emission :=
  match validateMessage message convHex with
  | Except.error e => (st, [Emission.send (OutFrame.errorMsg e)])
  | Except.ok vs =>
    match newMessageDoc { fields := vs, reply := none, createdAt := now } newId with
    | none => (st, [Emission.send (OutFrame.errorMsg "Error saving message")])
    | some doc =>
      (st ++ [doc],
       [Emission.publish ("/chat/" ++ convHex) (OutFrame.newMsg doc),
        Emission.enqueue users doc.conversation (OutFrame.newMsg doc)])

/-- The reply projection the handler computes from the parent: the parent's
two envelopes, swapped (part_010 lines 195-198). -/
def replyProjection (parent : MessageDoc) : ReplyProj :=
  { recipientContent := parent.senderContent, senderContent := parent.recipientContent }

/-- `MessageController.reply` (part_010 lines 163-221).  Validate with the
reply schema; fetch the parent and fail to the origin with
`Parent message not found` when absent; otherwise construct the literal
with the swapped `reply` projection and persist, publish and enqueue. -/
def replyHandler (st : List MessageDoc) (convHex : String) (users : List String)
    (message : JsVal) (newId : String) (now : Nat) : List MessageDoc × List Emission :=
  match validateReply message convHex with
  | Except.error e => (st, [Emission.send (OutFrame.errorMsg e)])
  | Except.ok vs =>
    match findMessageV st (lookupField vs "parent") with
    | none => (st, [Emission.send (OutFrame.errorMsg "Parent message not found")])
    | some parent =>
      match newMessageDoc { fields := vs, reply := some (replyProjection parent),
                            createdAt := now } newId with
      | none => (st, [Emission.send (OutFrame.errorMsg "Error replying to message")])
      | some doc =>
        (st ++ [doc],
         [Emission.publish ("/chat/" ++ convHex) (OutFrame.replyMsg doc),
          Emission.enqueue users doc.conversation (OutFrame.replyMsg doc)])

/-- `MessageController.delivered` (part_010 lines 264-304).  The handler
looks the message up by the frame value, then sets `status = 'delivered'`
unconditionally — there is no monotonicity check here, and `messageSchema`
imposes none — saves, publishes the status frame and enqueues a job. -/
def deliveredHandler (st : List MessageDoc) (convHex : String) (users : List String)
    (idVal : JsVal) : List MessageDoc × List Emission :=
  match findMessageV st idVal with
  | none => (st, [Emission.send (OutFrame.errorMsg "Message not found")])
  | some m =>
    let m2 := { m with status := MStatus.delivered }
    let st2 := st.map (fun d => if d.id == m.id then m2 else d)
    let data := OutFrame.statusMsg m.id m.conversation MStatus.delivered
    (st2, [Emission.publish ("/chat/" ++ convHex) data,
           Emission.enqueue users m.conversation data])

/-- JS strict equality `message.user === user` between the author string
and the handler's `user` argument: true only for the equal string. -/
def userEq (author : String) : JsVal → Bool
  | JsVal.str u => author == u
  | _ => false

/-- `MessageController.delete` (part_010 lines 478-519).  Look the message
up by the first argument; when found, delete only if the author equals the
second argument, else reply `Unauthorized to delete message` to the origin
only. -/
def deleteHandler (st : List MessageDoc) (convHex : String) (users : List String)
    (idArg : JsVal) (userArg : JsVal) : List MessageDoc × List Emission :=
  match findMessageV st idArg with
  | none => (st, [Emission.send (OutFrame.errorMsg "Message not found")])
  | some m =>
    if userEq m.user userArg then
      let data := OutFrame.removeMsg m.id m.conversation
      (st.filter (fun d => !(d.id == m.id)),
       [Emission.publish ("/chat/" ++ convHex) data,
        Emission.enqueue users m.conversation data])
    else
      (st, [Emission.send (OutFrame.errorMsg "Unauthorized to delete message")])

/-- An inbound frame `{kind, message}` for the kinds settled by the claims
(`update`, `reaction` and `forward` are not exercised by any claim and are
not modelled). -/
inductive InFrame where
  | newF : JsVal → InFrame
  | replyF : JsVal → InFrame
  | statusF : JsVal → InFrame
  | removeF : JsVal → InFrame

/-- `MessageController.process` (part_010 lines 26-44): dispatch on `kind`.
Every handler is invoked as `action.call(this, message)` — with the single
argument `message` — so `delete`, whose parameter list is `(id, user)`,
receives the whole frame message as `id` and `undefined` as `user`. -/
def processFrame (st : List MessageDoc) (convHex : String) (users : List String)
    (frame : InFrame) (newId : String) (now : Nat) : List MessageDoc × List Emission :=
  match frame with
  | InFrame.newF v => saveHandler st convHex users v newId now
  | InFrame.replyF v => replyHandler st convHex users v newId now
  | InFrame.statusF v => deliveredHandler st convHex users v
  | InFrame.removeF v => deleteHandler st convHex users v JsVal.undef

/- ───────────────────────── delivery worker (part_011 SocketWorker) ───────────────────────── -/

/-- A delivery job `{to, kind: 'worker', conversation, data}` as produced
by `MessageController.worker` and consumed by `SocketWorker`.  `to` is an
Option so that the worker's `!data.to` guard is expressible (a missing
`to` is falsy; an empty array is truthy and passes the guard). -/
structure SocketJob where
  toUsers : Option (List String)  -- the job field named `to`
  conversation : String
  data : OutFrame
deriving DecidableEq

/-- `connections.get(user)`: the per-instance registry, user hex to the
connection handle (handles modelled as Nat). -/
def connLookup (conns : List (String × Nat)) (u : String) : Option Nat :=
  (conns.find? (fun c => c.1 == u)).map (fun c => c.2)

/-- `SocketWorker.send` (part_011 lines 47-68).  After the `!data.to`
guard, the source destructures the MAPPED lookups of the first two
recipients — `const [user1, user2] = data.to.map(user => connections.get(user))`
— and sends the serialised job to both handles only when BOTH lookups
produced a connection (`if (user1 && user2)`); otherwise it logs a warning
and sends nothing.  Recipients beyond the first two are never read. -/
def socketWorkerSend (conns : List (String × Nat)) (job : SocketJob) :
    List (Nat × SocketJob) :=
  match job.toUsers with
  | none => []
  | some tos =>
    let user1 := (tos.get? 0).bind (connLookup conns)
    let user2 := (tos.get? 1).bind (connLookup conns)
    match user1, user2 with
    | some h1, some h2 => [(h1, job), (h2, job)]
    | _, _ => []

/- ───────────────────────── conversation documents (src/models/conversation.js) ───────────────────────── -/

/-- A participant subdocument.  The participant schema (lines 14-23)
declares `status`, `kind`, `user`, `online`, `group`, `role` and the join
timestamps (timestamps omitted here; no claim mentions them).  It declares
NO `hex` path: the `hex` field below exists in the model only so that the
service's `participants.hex` queries are expressible, and every document
produced by the schema cast carries `hex = none`. -/
structure ParticipantDoc where
  hex : Option String
  status : String
  kind : String
  user : String
  online : Bool
  group : Option String
  role : String
deriving DecidableEq

/-- A pin subdocument `{user, pinnedAt}` (timestamp omitted). -/
structure PinDoc where
  user : String
deriving DecidableEq

/-- A conversation document per `conversationSchema` (lines 70-82); the
`deleted` tombstones and timestamps are omitted (no claim mentions them).
`fromUser` is the schema field named `from` (`from` is a Lean keyword). -/
structure ConversationDoc where
  hex : String
  participants : List ParticipantDoc
  kind : String
  fromUser : String
  pins : List PinDoc
  last : Option String
  unread : Int
  total : Int
deriving DecidableEq

/-- A participant object of a create request body.  Per the HTTP contract
(spec body `{participants: [{hex, …}, {hex, …}]}`) the `hex` property is
present; the remaining properties may or may not be. -/
structure BodyPart where
  hex : String
  user : Option String
  kind : Option String
  role : Option String
  status : Option String

/-- Mongoose cast of one body participant through the participant schema:
`user` and `kind` are required (no default), `role`/`status` take their
defaults, enum members are enforced, and the undeclared `hex` property is
discarded (strict mode) — the stored subdocument has `hex = none`. -/
def castParticipant (b : BodyPart) : Option ParticipantDoc :=
  match b.user with
  | none => none
  | some u =>
    if u == "" then none else
    match b.kind with
    | none => none
    | some k =>
      if !( ["user", "group"].contains k) then none else
      let r := b.role.getD "member"
      if !( ["admin", "moderator", "member"].contains r) then none else
      let s := b.status.getD "active"
      if !( ["active", "inactive", "suspended", "blocked"].contains s) then none else
      some { hex := none, status := s, kind := k, user := u,
             online := false, group := none, role := r }

/-- Models `new Conversation({participants, kind, hex})` followed by
`save()`.  The conversation schema requires `from`, which the service
never supplies (the parameter is threaded to make that visible at the call
site), so the cast also fails for that reason; participants are cast
through the participant schema.  The pre-save hook rewriting `deleted` is
not modelled (validation fails first). -/
def castNewConversation (ps : List BodyPart) (kindArg : Option String)
    (hexId : String) (fromUser : Option String) : Option ConversationDoc :=
  match ps.mapM castParticipant with
  | none => none
  | some parts =>
    match fromUser with
    | none => none
    | some f =>
      if f == "" then none else
      let k := match kindArg with
        | some s => if s == "" then "request" else s  -- `kind || 'request'`
        | none => "request"
      if !( ["request", "trusted"].contains k) then none else
      some { hex := hexId, participants := parts, kind := k, fromUser := f,
             pins := [], last := none, unread := 0, total := 0 }

/- ───────────────────────── conversation service (src/services/conversation.js) ───────────────────────── -/

/-- An HTTP JSON response as produced by `jsonResponse`. -/
structure HttpResp where
  status : Nat
  success : Bool
  error : Option String
deriving DecidableEq

/-- `ConversationService.exists(participants)` (lines 28-35): the query
`{'participants.hex': {$all: participants}}` matches a conversation iff
every queried hex occurs among the values of the `participants.hex` path.
Since the participant schema declares no `hex` path, stored subdocuments
carry no value there (`hex = none` in the model) and a string query value
can never match. -/
def conversationExists (st : List ConversationDoc) (hexes : List String) : Bool :=
  st.any (fun c => hexes.all (fun h => c.participants.any (fun p => p.hex == some h)))

/-- A create request body `{participants, kind}`. -/
structure CreateBody where
  participants : List BodyPart
  kind : Option String

/-- `ConversationService.create` (lines 188-216): reject bodies with fewer
than two participants; reject when `exists` reports the pair; otherwise
construct and save the conversation — passing no `from`, so the save
always fails and the catch answers 500. -/
def createConversation (body : CreateBody) (genHex : String)
    (st : List ConversationDoc) : HttpResp × List ConversationDoc :=
  match body.participants with
  | p0 :: p1 :: _ =>
    if conversationExists st [p0.hex, p1.hex] then
      ({ status := 400, success := false, error := some "Conversation already exists" }, st)
    else
      match castNewConversation body.participants body.kind genHex none with
      | none => ({ status := 500, success := false, error := some "Error creating conversation" }, st)
      | some c => ({ status := 201, success := true, error := none }, st ++ [c])
  | _ => ({ status := 400, success := false, error := some "Invalid participants" }, st)

/-- `CHAT_MAX_PINS` default (part_002 `convertToNumber(..., 5)`). -/
def maxPins : Nat := 5

/-- Equality test of the pin lookup filter `participants: { $in: [hex] }`:
whether a participant SUBDOCUMENT equals the plain string `hex`.  BSON
values of different types are never equal, so this is false for every
participant; the comparison is kept as a definition to mirror the query.
(Mongoose query casting would instead raise a cast failure handled by the
catch as a 500; under either reading the pin flow never reaches the
pinned/cap branches.) -/
def participantEqString (_p : ParticipantDoc) (_h : String) : Bool := false

/-- `ConversationService.pin` (lines 388-421).  Note
`const { hex: conversationHex } = req.getParameter(0)` destructures the
`hex` property OF THE STRING route parameter, yielding `undefined`;
mongoose strips undefined filter values, leaving the filter
`{ participants: { $in: [userHex] } }` alone, which is modelled here.
When no conversation matches: 404.  When one matches: reject when the user
already pinned it; reject when the conversation's OWN pin list (pins by
any user) has reached `maxPins`; else append the pin. -/
def pinConversation (st : List ConversationDoc) (userHex : String) :
    HttpResp × List ConversationDoc :=
  match st.find? (fun c => c.participants.any (fun p => participantEqString p userHex)) with
  | none => ({ status := 404, success := false, error := some "Conversation not found" }, st)
  | some c =>
    if c.pins.any (fun p => p.user == userHex) then
      ({ status := 400, success := false, error := some "Conversation already pinned" }, st)
    else if maxPins ≤ c.pins.length then
      ({ status := 400, success := false, error := some "Cannot pin more than 5 conversations" }, st)
    else
      ({ status := 200, success := true, error := none },
       st.map (fun d => if d.hex == c.hex then { c with pins := c.pins ++ [{ user := userHex }] } else d))

/- ───────────────────────── upgrade handshake (src/app.js /events, part_008 authorize) ───────────────────────── -/

/-- The user claims a verified token yields. -/
structure UserClaims where
  hex : String
deriving DecidableEq

/-- Whether the first list is a prefix of the second, character by
character. -/
def prefixOfChars : List Char → List Char → Bool
  | [], _ => true
  | _ :: _, [] => false
  | p :: ps, c :: cs => p = c && prefixOfChars ps cs

/-- `cookies.split('; ')` over the character list. -/
def splitCookie : List Char → List (List Char)
  | [] => [[]]
  | [c] => [[c]]
  | c1 :: c2 :: rest =>
    if c1 = ';' && c2 = ' ' then
      [] :: splitCookie rest
    else
      match splitCookie (c2 :: rest) with
      | seg :: segs => (c1 :: seg) :: segs
      | [] => [[c1]]

/-- `str.split('=')` over the character list. -/
def splitEq : List Char → List (List Char)
  | [] => [[]]
  | c :: rest =>
    if c = '=' then
      [] :: splitEq rest
    else
      match splitEq rest with
      | seg :: segs => (c :: seg) :: segs
      | [] => [[c]]

/-- The cookie-token extraction of `authorize` (part_008 lines 159-182):
split on `'; '`, find the `x-access-token=` cookie, take what follows the
first `=`. -/
def extractToken (cookies : String) : Option String :=
  match (splitCookie cookies.toList).find?
      (fun c => prefixOfChars "x-access-token=".toList c) with
  | none => none
  | some c =>
    match splitEq c with
    | _ :: v :: _ => some (String.mk v)
    | _ => none

/-- `authorize(cookies)`: token extraction followed by verification
(`validateToken`, external JWT; modelled as the `verify` argument).
Returns null (none) on a missing token or failed verification; it never
throws. -/
def authorize (verify : String → Option UserClaims) (cookies : String) : Option UserClaims :=
  match extractToken cookies with
  | none => none
  | some t => verify t

/-- One action the upgrade handler performs on the uWS response. -/
inductive ResAct where
  | writeStatus : Nat → ResAct  -- res.writeStatus(...)
  | endResponse : ResAct        -- res.end()
  | upgradeRes : ResAct         -- res.upgrade(...)

/-- The state of a uWS HttpResponse during the upgrade handler:
whether it has been ended, which status (if any) was flushed, whether a
WebSocket session was established, and whether an access raised. -/
structure ResState where
  ended : Bool
  statusWritten : Option Nat
  sessionOpened : Bool
  raised : Bool
deriving DecidableEq

/-- One step of the uWS response discipline: a raised state absorbs every
further action (the exception propagates); ANY access to an already-ended
response raises (the invalid-access-of-discarded-response error of uWS);
otherwise the action takes effect, the first written status being the one
flushed to the client. -/
def resStep (s : ResState) (a : ResAct) : ResState :=
  if s.raised then s
  else if s.ended then { s with raised := true }
  else
    match a with
    | ResAct.writeStatus n =>
      { s with statusWritten := match s.statusWritten with
                                | some m => some m
                                | none => some n }
    | ResAct.endResponse => { s with ended := true }
    | ResAct.upgradeRes => { s with sessionOpened := true }

/-- Run a sequence of response actions. -/
def runActs (s : ResState) : List ResAct → ResState
  | [] => s
  | a :: rest => runActs (resStep s a) rest

/-- The fresh response handed to an upgrade handler. -/
def initialRes : ResState :=
  { ended := false, statusWritten := none, sessionOpened := false, raised := false }

/-- The `/events` upgrade handler (src/app.js lines 30-58).  Its try block:
when `authorize` yields no user it corks `writeStatus('401'); end()` — but
does NOT return (unlike the `/chat/:hex` handler, lines 119-125) — and then
unconditionally calls `res.upgrade(...)`.  The catch corks
`writeStatus('500'); end()` on the same response.  A session is established
only if the `upgradeRes` action lands on a live response; only an
established session runs the `open` handler, the sole place the `/events`
subscription (and, in the part_005 variant, the registry entry) is made. -/
def eventsUpgradeRun (verify : String → Option UserClaims) (cookies : String) :
    ResState :=
  let tryActs :=
    (if (authorize verify cookies).isNone then
      [ResAct.writeStatus 401, ResAct.endResponse]
     else []) ++ [ResAct.upgradeRes]
  let s1 := runActs initialRes tryActs
  if s1.raised then
    -- the exception lands in the catch, which writes 500 to the same response
    runActs { s1 with raised := false } [ResAct.writeStatus 500, ResAct.endResponse]
  else s1

/- ───────────────────────── concrete fixtures ───────────────────────── -/

/-- Build a content envelope value `{encrypted, nonce}`. -/
def mkEnvVal (e n : String) : JsVal :=
  JsVal.obj [("encrypted", JsVal.str e), ("nonce", JsVal.str n)]

/-- A complete, well-formed `new` frame message (every schema field
present: the validator de-facto requires even the optional ones, since a
missing string field fails its typeof check and a missing array field
fails the length read). -/
def newMsgFields : FieldMap :=
  [ ("kind", JsVal.str "message"),
    ("type", JsVal.str "all"),
    ("user", JsVal.str "u1"),
    ("recipientContent", mkEnvVal "E1" "N1"),
    ("senderContent", mkEnvVal "E2" "N2"),
    ("status", JsVal.str "sent"),
    ("attachments", JsVal.arr []),
    ("images", JsVal.arr []),
    ("videos", JsVal.arr []),
    ("reactions", JsVal.arr []),
    ("audio", JsVal.str "a") ]

/-- The well-formed `new` frame message as a value. -/
def msgNewVal : JsVal := JsVal.obj newMsgFields

/-- A well-formed `reply` frame message whose parent is `p1`. -/
def msgReplyVal : JsVal :=
  JsVal.obj (newMsgFields ++ [("parent", JsVal.str "p1")])

/-- A well-formed `reply` frame message whose parent id matches nothing. -/
def msgReplyMissingVal : JsVal :=
  JsVal.obj (newMsgFields ++ [("parent", JsVal.str "nope")])

/-- A frame message whose `recipientContent` is a bare string — not an
object, no `encrypted`, no `nonce`. -/
def msgBadContentVal : JsVal :=
  JsVal.obj
    [ ("kind", JsVal.str "message"),
      ("type", JsVal.str "all"),
      ("user", JsVal.str "u1"),
      ("recipientContent", JsVal.str "garbage"),
      ("senderContent", mkEnvVal "E2" "N2"),
      ("status", JsVal.str "sent"),
      ("attachments", JsVal.arr []),
      ("images", JsVal.arr []),
      ("videos", JsVal.arr []),
      ("reactions", JsVal.arr []),
      ("audio", JsVal.str "a") ]

/-- A frame message whose envelopes are objects with EMPTY `encrypted`
and `nonce` strings. -/
def msgEmptyContentVal : JsVal :=
  JsVal.obj
    [ ("kind", JsVal.str "message"),
      ("type", JsVal.str "all"),
      ("user", JsVal.str "u1"),
      ("recipientContent", mkEnvVal "" ""),
      ("senderContent", mkEnvVal "" ""),
      ("status", JsVal.str "sent"),
      ("attachments", JsVal.arr []),
      ("images", JsVal.arr []),
      ("videos", JsVal.arr []),
      ("reactions", JsVal.arr []),
      ("audio", JsVal.str "a") ]

/-- A persisted parent message with sender envelope SA/SN and recipient
envelope RA/RN (the S6 scenario of the spec). -/
def p1doc : MessageDoc :=
  { id := "p1", conversation := "h1", kind := "message", typeOf := "all",
    parent := none, user := "u1",
    recipientContent := { encrypted := "RA", nonce := "RN" },
    senderContent := { encrypted := "SA", nonce := "SN" },
    status := MStatus.sent, reply := none, attachments := [], images := [],
    videos := [], reactions := [], audio := none, createdAt := 1 }

/-- A persisted message authored by `u1` whose status is already `read`. -/
def m1doc : MessageDoc :=
  { id := "m1", conversation := "h1", kind := "message", typeOf := "all",
    parent := none, user := "u1",
    recipientContent := { encrypted := "E1", nonce := "N1" },
    senderContent := { encrypted := "E2", nonce := "N2" },
    status := MStatus.read, reply := none, attachments := [], images := [],
    videos := [], reactions := [], audio := none, createdAt := 2 }

/-- A one-message store holding `m1doc`. -/
def st1 : List MessageDoc := [m1doc]

/-- A body participant carrying both the request `hex` and the
schema-required `user`/`kind` properties. -/
def bp (h u : String) : BodyPart :=
  { hex := h, user := some u, kind := some "user", role := none, status := none }

/-- A create request body for the pair a1/b1. -/
def body4 : CreateBody :=
  { participants := [bp "a1" "a1", bp "b1" "b1"], kind := none }

/-- A stored participant subdocument for a user (as the schema cast
produces: keyed by `user`, no `hex` value). -/
def partDoc (u : String) : ParticipantDoc :=
  { hex := none, status := "active", kind := "user", user := u,
    online := false, group := none, role := "member" }

/-- A stored conversation between a1 and b1. -/
def convAB : ConversationDoc :=
  { hex := "hab", participants := [partDoc "a1", partDoc "b1"],
    kind := "trusted", fromUser := "a1", pins := [], last := none,
    unread := 0, total := 0 }

/-- A stored conversation between `u1` and `b1` pinned by `u1`. -/
def convPinned (h : String) : ConversationDoc :=
  { hex := h, participants := [partDoc "u1", partDoc "b1"],
    kind := "trusted", fromUser := "u1", pins := [{ user := "u1" }],
    last := none, unread := 0, total := 0 }

/-- The S2 scenario store: five distinct conversations already pinned by
`u1`, plus a sixth (`h6`, not yet pinned) that `u1` participates in. -/
def stS2 : List ConversationDoc :=
  [ convPinned "h1", convPinned "h2", convPinned "h3", convPinned "h4",
    convPinned "h5",
    { hex := "h6", participants := [partDoc "u1", partDoc "b1"],
      kind := "trusted", fromUser := "u1", pins := [], last := none,
      unread := 0, total := 0 } ]

/-- Whether an Except result is a success. -/
def exceptIsOk : Except String FieldMap → Bool
  | Except.ok _ => true
  | Except.error _ => false

/-- The payload of a successful validation (empty map on failure). -/
def okValue : Except String FieldMap → FieldMap
  | Except.ok vs => vs
  | Except.error _ => []

/-- Whether an emission is an error frame sent to the origin. -/
def isErrorSend : Emission → Bool
  | Emission.send (OutFrame.errorMsg _) => true
  | _ => false

/- ───────────────────────── supporting lemmas ───────────────────────── -/

theorem lookupField_setField_self (vs : FieldMap) (k : String) (v : JsVal) :
    lookupField (setField vs k v) k = v := by
  induction vs with
  | nil =>
    simp [setField, lookupField, List.find?]
  | cons kv t ih =>
    by_cases hk : (kv.1 == k) = true
    · have hset : setField (kv :: t) k v =
          (k, v) :: t.map (fun kv => if kv.1 == k then (k, v) else kv) := by
        simp only [setField, List.any_cons, hk, Bool.true_or, if_pos, List.map_cons, hk, if_true]
      rw [hset]
      simp [lookupField, List.find?]
    · have hk' : (kv.1 == k) = false := by
        simpa using hk
      by_cases ht : t.any (fun kv => kv.1 == k) = true
      · have hset : setField (kv :: t) k v =
            kv :: t.map (fun kv => if kv.1 == k then (k, v) else kv) := by
          simp only [setField, List.any_cons, hk', ht, Bool.false_or, if_pos, List.map_cons,
            if_neg, Bool.false_eq_true, not_false_eq_true]
        have ihset : setField t k v = t.map (fun kv => if kv.1 == k then (k, v) else kv) := by
          simp only [setField, ht, if_pos]
        rw [hset]
        rw [ihset] at ih
        simp only [lookupField, List.find?, hk'] at ih ⊢
        exact ih
      · have ht' : t.any (fun kv => kv.1 == k) = false := Bool.eq_false_iff.mpr ht
        have hset : setField (kv :: t) k v = kv :: (t ++ [(k, v)]) := by
          simp only [setField, List.any_cons, hk', ht', Bool.false_or, Bool.false_eq_true,
            if_neg, not_false_eq_true, List.cons_append]
        have ihset : setField t k v = t ++ [(k, v)] := by
          simp only [setField, ht', Bool.false_eq_true, if_neg, not_false_eq_true]
        rw [hset]
        rw [ihset] at ih
        simp only [lookupField, List.find?, hk'] at ih ⊢
        exact ih

theorem lookupField_setField_ne (vs : FieldMap) (k c : String) (v : JsVal)
    (h : (c == k) = false) : lookupField (setField vs k v) c = lookupField vs c := by
  have hkc : (k == c) = false := by
    have : ¬(c = k) := by simpa using h
    simp
    exact fun hkc => this hkc.symm
  induction vs with
  | nil =>
    simp [setField, lookupField, List.find?, hkc]
  | cons kv t ih =>
    by_cases hk : (kv.1 == k) = true
    · have hck : (kv.1 == c) = false := by
        have h1 : kv.1 = k := by simpa using hk
        rw [h1]
        exact hkc
      have hset : setField (kv :: t) k v =
          (k, v) :: t.map (fun kv => if kv.1 == k then (k, v) else kv) := by
        simp only [setField, List.any_cons, hk, Bool.true_or, if_pos, List.map_cons, hk, if_true]
      rw [hset]
      simp only [lookupField, List.find?, hkc, hck]
      clear hset ih
      induction t with
      | nil => rfl
      | cons kv2 t2 ih2 =>
        by_cases hk2 : (kv2.1 == k) = true
        · have hck2 : (kv2.1 == c) = false := by
            have h1 : kv2.1 = k := by simpa using hk2
            rw [h1]; exact hkc
          simp only [List.map_cons, hk2, if_true, List.find?, hkc, hck2]
          exact ih2
        · have hk2' : (kv2.1 == k) = false := Bool.eq_false_iff.mpr hk2
          simp only [List.map_cons, hk2', Bool.false_eq_true, if_neg, not_false_eq_true,
            List.find?]
          by_cases hc2 : (kv2.1 == c) = true
          · simp only [hc2]
          · have hc2' : (kv2.1 == c) = false := Bool.eq_false_iff.mpr hc2
            simp only [hc2']
            exact ih2
    · have hk' : (kv.1 == k) = false := Bool.eq_false_iff.mpr hk
      by_cases ht : t.any (fun kv => kv.1 == k) = true
      · have hset : setField (kv :: t) k v =
            kv :: t.map (fun kv => if kv.1 == k then (k, v) else kv) := by
          simp only [setField, List.any_cons, hk', ht, Bool.false_or, if_pos, List.map_cons,
            if_neg, Bool.false_eq_true, not_false_eq_true]
        have ihset : setField t k v = t.map (fun kv => if kv.1 == k then (k, v) else kv) := by
          simp only [setField, ht, if_pos]
        rw [hset]
        rw [ihset] at ih
        by_cases hc : (kv.1 == c) = true
        · simp only [lookupField, List.find?, hc]
        · have hc' : (kv.1 == c) = false := Bool.eq_false_iff.mpr hc
          simp only [lookupField, List.find?, hc'] at ih ⊢
          exact ih
      · have ht' : t.any (fun kv => kv.1 == k) = false := Bool.eq_false_iff.mpr ht
        have hset : setField (kv :: t) k v = kv :: (t ++ [(k, v)]) := by
          simp only [setField, List.any_cons, hk', ht', Bool.false_or, Bool.false_eq_true,
            if_neg, not_false_eq_true, List.cons_append]
        have ihset : setField t k v = t ++ [(k, v)] := by
          simp only [setField, ht', Bool.false_eq_true, if_neg, not_false_eq_true]
        rw [hset]
        rw [ihset] at ih
        by_cases hc : (kv.1 == c) = true
        · simp only [lookupField, List.find?, hc]
        · have hc' : (kv.1 == c) = false := Bool.eq_false_iff.mpr hc
          simp only [lookupField, List.find?, hc'] at ih ⊢
          exact ih

theorem checkFieldTail_ok {k : String} {r : Rule} {vs1 vs' : FieldMap}
    (h : checkFieldTail k r vs1 = Except.ok vs') : vs' = vs1 := by
  unfold checkFieldTail at h
  split at h
  · exact absurd h (by simp)
  · split at h
    · exact absurd h (by simp)
    · exact (Except.ok.inj h).symm

theorem checkField_ok_shape {k : String} {r : Rule} {vs vs' : FieldMap}
    (h : checkField k r vs = Except.ok vs') :
    vs' = vs ∨ ∃ s, vs' = setField vs k (JsVal.str s) := by
  unfold checkField at h
  split at h
  · exact absurd h (by simp)
  · split at h
    · exact absurd h (by simp)
    · split at h
      · exact absurd h (by simp)
      · exact Or.inl (checkFieldTail_ok h)
      · exact Or.inr ⟨_, checkFieldTail_ok h⟩

theorem validate_ok_lookup_stable {c : String} :
    ∀ (sch : List (String × Rule)) (vs vs' : FieldMap),
      (∀ kr ∈ sch, (c == kr.1) = false) →
      validate sch vs = Except.ok vs' →
      lookupField vs' c = lookupField vs c := by
  intro sch
  induction sch with
  | nil =>
    intro vs vs' _ h
    unfold validate at h
    rw [Except.ok.inj h]
  | cons kr rest ih =>
    intro vs vs' hc h
    unfold validate at h
    split at h
    · exact absurd h (by simp)
    · next vs1 heq =>
      have h1 := ih vs1 vs' (fun x hm => hc x (List.mem_cons_of_mem _ hm)) h
      rcases checkField_ok_shape heq with rfl | ⟨s, rfl⟩
      · exact h1
      · rw [h1, lookupField_setField_ne _ _ _ _ (hc kr (List.mem_cons_self _ _))]

theorem strSan_stringT_ok {v : JsVal} {r : Option String}
    (h : strSan RuleType.stringT v = Except.ok r) :
    ∃ s0, v = JsVal.str s0 ∧ r = some (sanitize s0) := by
  cases v with
  | str s0 =>
    refine ⟨s0, rfl, ?_⟩
    have := Except.ok.inj h
    rw [← this]
  | undef => simp [strSan] at h
  | null => simp [strSan] at h
  | boolv b => simp [strSan] at h
  | arr xs => simp [strSan] at h
  | obj fs => simp [strSan] at h

theorem checkField_stringT_ok {k : String} {maxL : Option Nat} {vs vs' : FieldMap}
    (h : checkField k (mkRule RuleType.stringT true maxL) vs = Except.ok vs') :
    ∃ s, lookupField vs k = JsVal.str s ∧
      vs' = setField vs k (JsVal.str (sanitize s)) := by
  unfold checkField at h
  split at h
  · exact absurd h (by simp)
  · split at h
    · exact absurd h (by simp)
    · split at h
      · exact absurd h (by simp)
      · next heq =>
        obtain ⟨s0, _, hcontr⟩ := strSan_stringT_ok heq
        cases hcontr
      · next s heq =>
        obtain ⟨s0, hv, hs⟩ := strSan_stringT_ok heq
        refine ⟨s0, hv, ?_⟩
        rw [checkFieldTail_ok h, Option.some.inj hs]

theorem validate_head_conversation {rest : List (String × Rule)} {vs0 vs : FieldMap}
    {maxL : Option Nat}
    (hrest : ∀ kr ∈ rest, ("conversation" == kr.1) = false)
    (h : validate (("conversation", mkRule RuleType.stringT true maxL) :: rest) vs0 =
      Except.ok vs) :
    ∃ s, lookupField vs0 "conversation" = JsVal.str s ∧
      lookupField vs "conversation" = JsVal.str (sanitize s) := by
  unfold validate at h
  split at h
  · exact absurd h (by simp)
  · next vs1 heq =>
    obtain ⟨s, hv, rfl⟩ := checkField_stringT_ok heq
    have hst := validate_ok_lookup_stable rest _ _ hrest h
    rw [lookupField_setField_self] at hst
    exact ⟨s, hv, hst⟩

theorem validateMessage_conversation {msg : JsVal} {hex : String} {vs : FieldMap}
    (h : validateMessage msg hex = Except.ok vs) :
    lookupField vs "conversation" = JsVal.str (sanitize hex) := by
  cases msg with
  | obj fs =>
    unfold validateMessage newMessageSchema at h
    obtain ⟨s, hv, hvs⟩ := validate_head_conversation (by decide) h
    rw [lookupField_setField_self] at hv
    rw [hvs, JsVal.str.inj hv]
  | undef =>
    rw [show validateMessage JsVal.undef hex =
      Except.error "conversation is required" from rfl] at h
    cases h
  | null =>
    rw [show validateMessage JsVal.null hex =
      Except.error "conversation is required" from rfl] at h
    cases h
  | str s =>
    rw [show validateMessage (JsVal.str s) hex =
      Except.error "conversation is required" from rfl] at h
    cases h
  | boolv b =>
    rw [show validateMessage (JsVal.boolv b) hex =
      Except.error "conversation is required" from rfl] at h
    cases h
  | arr xs =>
    rw [show validateMessage (JsVal.arr xs) hex =
      Except.error "conversation is required" from rfl] at h
    cases h

theorem validateReply_conversation {msg : JsVal} {hex : String} {vs : FieldMap}
    (h : validateReply msg hex = Except.ok vs) :
    lookupField vs "conversation" = JsVal.str (sanitize hex) := by
  cases msg with
  | obj fs =>
    unfold validateReply replyMessageSchema at h
    obtain ⟨s, hv, hvs⟩ := validate_head_conversation (by decide) h
    rw [lookupField_setField_self] at hv
    rw [hvs, JsVal.str.inj hv]
  | undef =>
    rw [show validateReply JsVal.undef hex =
      Except.error "conversation is required" from rfl] at h
    cases h
  | null =>
    rw [show validateReply JsVal.null hex =
      Except.error "conversation is required" from rfl] at h
    cases h
  | str s =>
    rw [show validateReply (JsVal.str s) hex =
      Except.error "conversation is required" from rfl] at h
    cases h
  | boolv b =>
    rw [show validateReply (JsVal.boolv b) hex =
      Except.error "conversation is required" from rfl] at h
    cases h
  | arr xs =>
    rw [show validateReply (JsVal.arr xs) hex =
      Except.error "conversation is required" from rfl] at h
    cases h

theorem newMessageDoc_props {lit : MessageLiteral} {newId : String} {d : MessageDoc}
    (h : newMessageDoc lit newId = some d) :
    d.reply = none ∧ d.id = newId ∧ d.createdAt = lit.createdAt ∧
      castReqStr (lookupField lit.fields "conversation") = some d.conversation := by
  unfold newMessageDoc at h
  split at h
  · exact absurd h (by simp)
  · next conversation hconv =>
    repeat
      split at h
      try exact absurd h (by simp)
    have hd := Option.some.inj h
    subst hd
    exact ⟨rfl, rfl, rfl, hconv⟩

/- ───────────────────────── claim theorems ───────────────────────── -/

/-- C1 counterexample: a status frame for the message `m1` whose stored
status is `read` does NOT leave the store unchanged and produces NO error
frame — the handler downgrades the status to `delivered` and broadcasts a
status frame, refuting the claimed monotonicity and Invariant failure. -/
theorem c1_counterexample :
    (st1.find? (fun d => d.id == "m1")).map (fun d => d.status) = some MStatus.read ∧
    ((deliveredHandler st1 "h1" ["u1", "u2"] (JsVal.str "m1")).1.find?
        (fun d => d.id == "m1")).map (fun d => d.status) = some MStatus.delivered ∧
    (deliveredHandler st1 "h1" ["u1", "u2"] (JsVal.str "m1")).1 ≠ st1 ∧
    (deliveredHandler st1 "h1" ["u1", "u2"] (JsVal.str "m1")).2.any isErrorSend = false := by
  refine ⟨rfl, rfl, ?_, rfl⟩
  decide

/-- C1 amended: the status handler is NOT monotonic — whenever the
referenced message exists (whatever its current status, including `read`)
it unconditionally rewrites the stored status to `delivered`, publishes a
status frame to the conversation topic and enqueues a delivery job; no
error frame is produced and no downgrade check exists anywhere. -/
theorem c1_amended (st : List MessageDoc) (convHex : String) (users : List String)
    (id : String) (m : MessageDoc)
    (h : st.find? (fun d => d.id == id) = some m) :
    deliveredHandler st convHex users (JsVal.str id) =
      (st.map (fun d => if d.id == m.id then { m with status := MStatus.delivered } else d),
       [Emission.publish ("/chat/" ++ convHex)
          (OutFrame.statusMsg m.id m.conversation MStatus.delivered),
        Emission.enqueue users m.conversation
          (OutFrame.statusMsg m.id m.conversation MStatus.delivered)]) := by
  simp only [deliveredHandler, findMessageV, h]

/-- C1 witness: the amended statement applied to the concrete store whose
only message is `read`. -/
theorem c1_witness :
    deliveredHandler st1 "h1" ["u1", "u2"] (JsVal.str "m1") =
      (st1.map (fun d => if d.id == m1doc.id then { m1doc with status := MStatus.delivered } else d),
       [Emission.publish ("/chat/" ++ "h1")
          (OutFrame.statusMsg m1doc.id m1doc.conversation MStatus.delivered),
        Emission.enqueue ["u1", "u2"] m1doc.conversation
          (OutFrame.statusMsg m1doc.id m1doc.conversation MStatus.delivered)]) :=
  c1_amended st1 "h1" ["u1", "u2"] "m1" m1doc rfl

/-- C2: evaluating the dispatcher at the failing input.  For the remove
frame `{id: "m1", user: "u2"}` against a store whose message `m1` is
authored by `u1`, the dispatcher passes the WHOLE message object as the id
and `undefined` as the user, so the lookup finds nothing and the origin
receives `Message not found` — never `Unauthorized to delete message` —
while the message persists.  The third conjunct shows the delete handler
itself, invoked with the unpacked `(id, user)` arguments its parameter
list declares, would produce exactly the claimed unauthorized rejection. -/
theorem c2_eval :
    processFrame st1 "h1" ["u1", "u2"]
        (InFrame.removeF (JsVal.obj [("id", JsVal.str "m1"), ("user", JsVal.str "u2")])) "x" 0 =
      (st1, [Emission.send (OutFrame.errorMsg "Message not found")]) ∧
    m1doc.user = "u1" ∧
    deleteHandler st1 "h1" ["u1", "u2"] (JsVal.str "m1") (JsVal.str "u2") =
      (st1, [Emission.send (OutFrame.errorMsg "Unauthorized to delete message")]) :=
  ⟨rfl, rfl, rfl⟩

/-- C3 counterexample: replying to the stored parent `p1` persists a
message whose retrieved `reply` projection is `none` — not the claimed
swapped pair of the parent's envelopes. -/
theorem c3_counterexample :
    ((replyHandler [p1doc] "h1" ["u1", "u2"] msgReplyVal "m2" 7).1.find?
        (fun d => d.id == "m2")).map (fun d => d.reply) = some none ∧
    (some (some (replyProjection p1doc)) : Option (Option ReplyProj)) ≠ some none := by
  exact ⟨rfl, by decide⟩

/-- C3 amended: the reply handler computes the swapped projection
`{recipientContent: parent.senderContent, senderContent: parent.recipientContent}`
in the literal it passes to the Message constructor, and publishes and
persists the reply — but `reply` is not a declared path of
`messageSchema`, so the constructed document discards it: the stored
document retrieved afterwards carries `reply = none`. -/
theorem c3_amended (st : List MessageDoc) (convHex : String) (users : List String)
    (msg : JsVal) (newId : String) (now : Nat) (vs : FieldMap) (parent doc : MessageDoc)
    (hok : validateReply msg convHex = Except.ok vs)
    (hpar : findMessageV st (lookupField vs "parent") = some parent)
    (hdoc : newMessageDoc { fields := vs, reply := some (replyProjection parent),
                            createdAt := now } newId = some doc) :
    replyHandler st convHex users msg newId now =
      (st ++ [doc],
       [Emission.publish ("/chat/" ++ convHex) (OutFrame.replyMsg doc),
        Emission.enqueue users doc.conversation (OutFrame.replyMsg doc)]) ∧
    (replyProjection parent).recipientContent = parent.senderContent ∧
    (replyProjection parent).senderContent = parent.recipientContent ∧
    doc.reply = none := by
  refine ⟨?_, rfl, rfl, (newMessageDoc_props hdoc).1⟩
  simp only [replyHandler, hok, hpar, hdoc]

/-- C3 witness: the amended statement applied to the concrete S6 scenario. -/
theorem c3_witness :
    ((newMessageDoc
          { fields := okValue (validateReply msgReplyVal "h1"),
            reply := some (replyProjection p1doc), createdAt := 7 }
          "m2").getD p1doc).reply = none :=
  (c3_amended [p1doc] "h1" ["u1", "u2"] msgReplyVal "m2" 7
    (okValue (validateReply msgReplyVal "h1")) p1doc
    ((newMessageDoc
        { fields := okValue (validateReply msgReplyVal "h1"),
          reply := some (replyProjection p1doc), createdAt := 7 }
        "m2").getD p1doc)
    rfl rfl rfl).2.2.2

/-- C4: evaluating conversation creation at the failing input.  The create
request for the pair a1/b1 never succeeds (the service supplies no `from`
although the schema requires it, so the save always fails with 500), and —
decisively for the uniqueness claim — even with a stored conversation for
exactly that pair present, the duplicate check `exists` reports false,
because it queries the `participants.hex` path that the participant schema
does not declare (participants are keyed by `user`): the duplicate
rejection can never fire. -/
theorem c4_eval :
    createConversation body4 "h9" [] =
      ({ status := 500, success := false, error := some "Error creating conversation" }, []) ∧
    createConversation body4 "h9" [convAB] =
      ({ status := 500, success := false, error := some "Error creating conversation" }, [convAB]) ∧
    conversationExists [convAB] ["a1", "b1"] = false :=
  ⟨rfl, rfl, rfl⟩

/-- C5 counterexample: a job addressed to `u1` and `u2` with `u1` holding
an active local connection delivers NOTHING — the worker refuses to send
unless both of the first two recipients are connected, so the connected
recipient `u1` does not receive the frame. -/
theorem c5_counterexample :
    connLookup [("u1", 7)] "u1" = some 7 ∧
    socketWorkerSend [("u1", 7)]
      { toUsers := some ["u1", "u2"], conversation := "h1",
        data := OutFrame.removeMsg "m1" "h1" } = [] :=
  ⟨rfl, rfl⟩

/-- C5 amended: recipients are NOT handled independently — the worker
reads only the first two entries of `to`, sends to both exactly when both
have active local connections, and sends to nobody when either lookup
fails; an absent connection thus suppresses delivery to the other,
connected recipient. -/
theorem c5_amended (conns : List (String × Nat)) (u1 u2 : String) (rest : List String)
    (conv : String) (f : OutFrame) :
    (connLookup conns u1 = none →
      socketWorkerSend conns
        { toUsers := some (u1 :: u2 :: rest), conversation := conv, data := f } = []) ∧
    (∀ h1, connLookup conns u1 = some h1 → connLookup conns u2 = none →
      socketWorkerSend conns
        { toUsers := some (u1 :: u2 :: rest), conversation := conv, data := f } = []) ∧
    (∀ h1 h2, connLookup conns u1 = some h1 → connLookup conns u2 = some h2 →
      socketWorkerSend conns
        { toUsers := some (u1 :: u2 :: rest), conversation := conv, data := f } =
        [(h1, { toUsers := some (u1 :: u2 :: rest), conversation := conv, data := f }),
         (h2, { toUsers := some (u1 :: u2 :: rest), conversation := conv, data := f })]) := by
  refine ⟨?_, ?_, ?_⟩
  · intro h
    simp [socketWorkerSend, h]
  · intro h1 hh1 hh2
    simp [socketWorkerSend, hh1, hh2]
  · intro h1 h2 hh1 hh2
    simp [socketWorkerSend, hh1, hh2]

/-- C5 witness: the amended statement applied to a registry holding only
`u1` (nothing is delivered) and to one holding both (both receive). -/
theorem c5_witness :
    socketWorkerSend [("u1", 7)]
      { toUsers := some ["u1", "u2"], conversation := "h1",
        data := OutFrame.removeMsg "m1" "h1" } = [] ∧
    socketWorkerSend [("u1", 7), ("u2", 9)]
      { toUsers := some ["u1", "u2"], conversation := "h1",
        data := OutFrame.removeMsg "m1" "h1" } =
      [(7, { toUsers := some ["u1", "u2"], conversation := "h1",
             data := OutFrame.removeMsg "m1" "h1" }),
       (9, { toUsers := some ["u1", "u2"], conversation := "h1",
             data := OutFrame.removeMsg "m1" "h1" })] :=
  ⟨(c5_amended [("u1", 7)] "u1" "u2" [] "h1" (OutFrame.removeMsg "m1" "h1")).2.1 7 rfl rfl,
   (c5_amended [("u1", 7), ("u2", 9)] "u1" "u2" [] "h1" (OutFrame.removeMsg "m1" "h1")).2.2
     7 9 rfl rfl⟩

/-- C6: evaluating the pin endpoint at the failing input (the S2 scenario:
five conversations pinned by `u1`, pinning the sixth), and in general.
Every pin request answers 404 `Conversation not found` with the store
unchanged: the lookup filter compares participant subdocuments with the
bare user hex, which never matches, so the cap branch — which moreover
counts the target conversation's own pins rather than the user's pins
across conversations — is unreachable and the claimed 400
`Cannot pin more than 5 conversations` is never produced. -/
theorem c6_eval :
    pinConversation stS2 "u1" =
      ({ status := 404, success := false, error := some "Conversation not found" }, stS2) ∧
    (∀ (st : List ConversationDoc) (userHex : String),
      pinConversation st userHex =
        ({ status := 404, success := false, error := some "Conversation not found" }, st)) := by
  refine ⟨rfl, ?_⟩
  intro st userHex
  unfold pinConversation
  have hnone : st.find?
      (fun c => c.participants.any (fun p => participantEqString p userHex)) = none := by
    rw [List.find?_eq_none]
    intro c _
    simp [participantEqString]
  rw [hnone]

/-- C7 counterexample: a frame whose `recipientContent` is the bare string
`"garbage"` — no object, no `encrypted`, no `nonce` — passes validation,
and the garbage value is returned unchanged; likewise envelopes whose
`encrypted`/`nonce` are empty strings pass.  The validator does not reject
malformed content values. -/
theorem c7_counterexample :
    exceptIsOk (validateMessage msgBadContentVal "h1") = true ∧
    exceptIsOk (validateMessage msgEmptyContentVal "h1") = true ∧
    lookupField (okValue (validateMessage msgBadContentVal "h1")) "recipientContent" =
      JsVal.str "garbage" :=
  ⟨rfl, rfl, rfl⟩

/-- C7 amended: for a field declared with type `content` the validator
enforces presence only — `undefined`, `null` and the empty string fail
with `<field> is required`, and EVERY other value, of any shape, passes
with the field map returned unchanged (the source `validate` has no branch
for the `content` rule type). -/
theorem c7_amended (k : String) (vs : FieldMap) :
    checkField k (mkRule RuleType.contentT true none) vs =
      (if isMissing (lookupField vs k) then Except.error (k ++ " is required")
       else Except.ok vs) := by
  unfold checkField
  by_cases h : isMissing (lookupField vs k)
  · simp [mkRule, h]
  · have h' : isMissing (lookupField vs k) = false := Bool.eq_false_iff.mpr h
    simp [mkRule, h', isBooleanT, strSan, checkFieldTail, lenCheck, lenCheck.lenMinCheck,
      enumCheck]

/-- C8: an `/events` upgrade whose cookies yield no authenticated user
flushes status 401 and establishes no WebSocket session.  (The handler is
missing the `return` after the 401 write and does reach `res.upgrade`, but
that call lands on the already-ended response, which uWS rejects; the
catch's 500 write is likewise rejected, so the client-visible status stays
401 and the `open` handler — the only place the `/events` subscription and
registry entry are made — never runs.) -/
theorem c8_main (verify : String → Option UserClaims) (cookies : String)
    (h : authorize verify cookies = none) :
    (eventsUpgradeRun verify cookies).statusWritten = some 401 ∧
    (eventsUpgradeRun verify cookies).sessionOpened = false := by
  unfold eventsUpgradeRun
  rw [h]
  exact ⟨rfl, rfl⟩

/-- C8 witness: a cookie header with no token at all. -/
theorem c8_witness :
    (eventsUpgradeRun (fun _ => none) "").statusWritten = some 401 ∧
    (eventsUpgradeRun (fun _ => none) "").sessionOpened = false :=
  c8_main (fun _ => none) "" rfl

/-- C9: a reply frame that passes schema validation but whose parent id
resolves to no persisted message makes the dispatcher send exactly one
error frame `Parent message not found` to the originating socket, with the
store unchanged, nothing published to the conversation topic and no
delivery job enqueued. -/
theorem c9_main (st : List MessageDoc) (convHex : String) (users : List String)
    (msg : JsVal) (newId : String) (now : Nat) (vs : FieldMap)
    (hok : validateReply msg convHex = Except.ok vs)
    (hmiss : findMessageV st (lookupField vs "parent") = none) :
    replyHandler st convHex users msg newId now =
      (st, [Emission.send (OutFrame.errorMsg "Parent message not found")]) := by
  simp only [replyHandler, hok, hmiss]

/-- C9 witness: a well-formed reply whose parent id matches no stored
message, against the empty store. -/
theorem c9_witness :
    replyHandler [] "h1" ["u1", "u2"] msgReplyMissingVal "m9" 5 =
      ([], [Emission.send (OutFrame.errorMsg "Parent message not found")]) :=
  c9_main [] "h1" ["u1", "u2"] msgReplyMissingVal "m9" 5
    (okValue (validateReply msgReplyMissingVal "h1")) rfl rfl

/-- C10: every message persisted by a new or reply frame on the chat
socket of conversation `convHex` carries `conversation = convHex` (for any
hex fixed by sanitisation, as every generated hex is): the validator
overwrites the frame's `conversation` with the socket's bound hex before
checking, and the persisted document takes its `conversation` from the
validated map — a client cannot store a message under another
conversation. -/
theorem c10_main (convHex : String) (users : List String) (msg : JsVal)
    (st : List MessageDoc) (newId : String) (now : Nat)
    (hsan : sanitize convHex = convHex) :
    (∀ d ∈ (saveHandler st convHex users msg newId now).1,
      d ∈ st ∨ d.conversation = convHex) ∧
    (∀ d ∈ (replyHandler st convHex users msg newId now).1,
      d ∈ st ∨ d.conversation = convHex) := by
  constructor
  · intro d hd
    unfold saveHandler at hd
    cases hval : validateMessage msg convHex with
    | error e =>
      simp only [hval] at hd
      exact Or.inl hd
    | ok vs =>
      simp only [hval] at hd
      cases hdoc : newMessageDoc { fields := vs, reply := none, createdAt := now } newId with
      | none =>
        simp only [hdoc] at hd
        exact Or.inl hd
      | some doc =>
        simp only [hdoc] at hd
        simp only [List.mem_append, List.mem_singleton] at hd
        rcases hd with hd | rfl
        · exact Or.inl hd
        · right
          have hconv := (newMessageDoc_props hdoc).2.2.2
          rw [validateMessage_conversation hval, hsan] at hconv
          rw [show castReqStr (JsVal.str convHex) =
            (if (convHex == "") = true then none else some convHex) from rfl] at hconv
          split at hconv
          · cases hconv
          · exact (Option.some.inj hconv).symm
  · intro d hd
    unfold replyHandler at hd
    cases hval : validateReply msg convHex with
    | error e =>
      simp only [hval] at hd
      exact Or.inl hd
    | ok vs =>
      simp only [hval] at hd
      cases hpar : findMessageV st (lookupField vs "parent") with
      | none =>
        simp only [hpar] at hd
        exact Or.inl hd
      | some parent =>
        simp only [hpar] at hd
        cases hdoc : newMessageDoc { fields := vs, reply := some (replyProjection parent),
                                     createdAt := now } newId with
        | none =>
          simp only [hdoc] at hd
          exact Or.inl hd
        | some doc =>
          simp only [hdoc] at hd
          simp only [List.mem_append, List.mem_singleton] at hd
          rcases hd with hd | rfl
          · exact Or.inl hd
          · right
            have hconv := (newMessageDoc_props hdoc).2.2.2
            rw [validateReply_conversation hval, hsan] at hconv
            rw [show castReqStr (JsVal.str convHex) =
              (if (convHex == "") = true then none else some convHex) from rfl] at hconv
            split at hconv
            · cases hconv
            · exact (Option.some.inj hconv).symm

/-- C10 witness: a concrete well-formed new frame persisted on the socket
of conversation `h1`. -/
theorem c10_witness :
    sanitize "h1" = "h1" ∧
    (∀ d ∈ (saveHandler [] "h1" ["u1", "u2"] msgNewVal "m7" 3).1,
      d ∈ ([] : List MessageDoc) ∨ d.conversation = "h1") :=
  ⟨rfl, (c10_main "h1" ["u1", "u2"] msgNewVal [] "m7" 3 rfl).1⟩
